import Mathlib

/-
Verification of the metricforge semantic metrics layer: a shallow embedding
of the data model (`models/semantic_model.py`, `models/metric.py`,
`models/query.py`), the registry loader (`parser/loader.py`) and the SQL
compiler (`compiler/sql_builder.py`), together with theorems settling the
frozen claims about it.

Conventions of the embedding:
  * Python dicts become insertion-ordered association lists
    (`List (String × α)`); assignment to an existing key keeps the entry's
    position and replaces the value (`dictInsert`), exactly like CPython.
  * Python sets become insertion-ordered duplicate-free lists (`set_add`);
    `next(iter(s))` becomes taking the head.
  * Raised exceptions become `Except`/`Option` results; a distinct
    constructor mirrors each distinct `raise` site.
  * Python truthiness is modelled where it matters: `if limit:` is
    "is some and nonzero", `if filter_expr:` is "is some and nonempty",
    an empty list is falsy.
  * The recursive metric resolver gets an explicit fuel parameter
    (`resolve_single`): the source recurses unboundedly and the spec itself
    notes a cyclic derived-metric graph diverges, so fuel only cuts the
    divergent cases.
  * The external sqlglot formatter (`_format_sql`) is out of scope per the
    spec (§1, §4.2 step 8: cosmetic, degrades to the unformatted string on
    failure); `compile` here returns the assembled string.
-/

namespace MetricForge

/-! ## Data model (`models/semantic_model.py`) -/

inductive AggregationType where
  | sum
  | count
  | count_distinct
  | avg
  | min
  | max
deriving DecidableEq, Repr

inductive DimensionType where
  | categorical
  | time
deriving DecidableEq, Repr

inductive TimeGranularity where
  | day
  | week
  | month
  | quarter
  | year
deriving DecidableEq, Repr

inductive EntityType where
  | primary
  | foreign
  | unique
deriving DecidableEq, Repr

structure Entity where
  name : String
  type' : EntityType
  expr : Option String := none
deriving DecidableEq, Repr

structure Measure where
  name : String
  agg : AggregationType
  expr : String
  description : Option String := none
deriving DecidableEq, Repr

structure Dimension where
  name : String
  type' : DimensionType
  expr : Option String := none
  time_granularity : Option TimeGranularity := none
  description : Option String := none
deriving DecidableEq, Repr

structure SemanticModel where
  name : String
  description : Option String := none
  table : String
  primary_entity : String
  entities : List Entity := []
  measures : List Measure := []
  dimensions : List Dimension := []
deriving DecidableEq, Repr

/-- `SemanticModel.get_measure`: first measure with the given name, else None. -/
def SemanticModel.get_measure (m : SemanticModel) (name : String) : Option Measure :=
  m.measures.find? (fun ms => ms.name == name)

/-- `SemanticModel.get_dimension`: first dimension with the given name, else None. -/
def SemanticModel.get_dimension (m : SemanticModel) (name : String) : Option Dimension :=
  m.dimensions.find? (fun d => d.name == name)

/-- Python `list.find(c)`: index of the first occurrence of `c`, or -1. -/
def pyFind : List Char → Char → Int
  | [], _ => -1
  | c :: rest, x =>
    if c = x then 0
    else
      let r := pyFind rest x
      if r = -1 then -1 else r + 1

/-- Python `list.rfind(c)`: index of the last occurrence of `c`, or -1. -/
def pyRFind : List Char → Char → Int
  | [], _ => -1
  | c :: rest, x =>
    let r := pyRFind rest x
    if r = -1 then (if c = x then 0 else -1) else r + 1

/-- Python slice `l[a:b]` (clamping, negative indices count from the end). -/
def pySlice (l : List Char) (a b : Int) : List Char :=
  let n : Int := l.length
  let norm : Int → Nat := fun i => (if i < 0 then max (n + i) 0 else min i n).toNat
  (l.take (norm b)).drop (norm a)

/-- `SemanticModel.get_table_name`: unwraps dbt-style `ref('name')` syntax,
otherwise returns the raw table string. (`table.startswith("ref(")` is
modelled as a character-prefix test so it evaluates by kernel reduction.) -/
def SemanticModel.get_table_name (m : SemanticModel) : String :=
  if m.table.data.take 4 = "ref(".data then
    let tl := m.table.data
    let start := pyFind tl '\x27' + 1
    let start := if start = 0 then pyFind tl '"' + 1 else start
    let e := pyRFind tl '\x27'
    let e := if e = -1 then pyRFind tl '"' else e
    String.mk (pySlice tl start e)
  else m.table

/-! ## Metric model (`models/metric.py`) -/

structure SimpleMetricParams where
  measure : String
deriving DecidableEq, Repr

structure DerivedMetricParams where
  expr : String
  metrics : List String
deriving DecidableEq, Repr

structure RatioMetricParams where
  numerator : String
  denominator : String
deriving DecidableEq, Repr

structure CumulativeMetricParams where
  measure : String
  window : Option String := none
  grain_to_date : Option String := none
deriving DecidableEq, Repr

/-- The union `SimpleMetricParams | DerivedMetricParams | RatioMetricParams |
CumulativeMetricParams` of `models/metric.py`. -/
inductive MetricTypeParams where
  | simple (p : SimpleMetricParams)
  | derived (p : DerivedMetricParams)
  | ratio (p : RatioMetricParams)
  | cumulative (p : CumulativeMetricParams)
deriving DecidableEq, Repr

/-- The `Literal["simple", "derived", "ratio", "cumulative"]` type tag. -/
inductive MetricType where
  | simple
  | derived
  | ratio
  | cumulative
deriving DecidableEq, Repr

structure Metric where
  name : String
  description : Option String := none
  type' : MetricType
  type_params : MetricTypeParams
  filter : Option String := none
deriving DecidableEq, Repr

/-- The check performed by `Metric.validate_type_params`: the parameter
variant's class must match the declared type tag. -/
def type_params_match : MetricType → MetricTypeParams → Bool
  | .simple, .simple _ => true
  | .derived, .derived _ => true
  | .ratio, .ratio _ => true
  | .cumulative, .cumulative _ => true
  | _, _ => false

/-- Constructing a `Metric` value. Pydantic runs the `mode="after"` validator
`validate_type_params` during construction and raises on mismatch; a
mismatched combination therefore never produces a value. -/
def mkMetric (name : String) (description : Option String) (ty : MetricType)
    (tp : MetricTypeParams) (filter : Option String) : Option Metric :=
  if type_params_match ty tp then
    some { name := name, description := description, type' := ty,
           type_params := tp, filter := filter }
  else none

/-! ## Query model (`models/query.py`).
`start_date`/`end_date` are ISO date strings (Python `date` values are always
truthy, so only presence matters); `limit` is an `Int` to reflect that the
Python field is an unconstrained `int | None`. -/

structure MetricQuery where
  metrics : List String
  dimensions : List String := []
  filters : List String := []
  time_grain : Option String := none
  start_date : Option String := none
  end_date : Option String := none
  limit : Option Int := none
  order_by : List String := []
deriving DecidableEq, Repr

/-! ## Registry (`parser/loader.py`) -/

/-- Every distinct `raise` site of the loader gets its own constructor; the
unresolved-reference constructors carry exactly the two names the Python
error message interpolates (the offending metric and the missing reference). -/
inductive LoadError where
  | noDefinitionsFound
  | duplicateSemanticModel (name : String)
  | duplicateMetric (name : String)
  | duplicateMeasureName (measure firstModel secondModel : String)
  | duplicateDimensionName (dimension firstModel secondModel : String)
  | typeParamsMismatch (metricName : String)
  | unknownMeasure (metricName measureName : String)
  | unknownMetric (metricName refName : String)
  | unknownNumerator (metricName refName : String)
  | unknownDenominator (metricName refName : String)
  | unknownCumulativeMeasure (metricName measureName : String)
deriving DecidableEq, Repr

/-- The names the error message interpolates, for the unresolved-reference
family: `(offending metric, missing reference)`. -/
def LoadError.unresolved_names : LoadError → Option (String × String)
  | .unknownMeasure m r => some (m, r)
  | .unknownMetric m r => some (m, r)
  | .unknownNumerator m r => some (m, r)
  | .unknownDenominator m r => some (m, r)
  | .unknownCumulativeMeasure m r => some (m, r)
  | _ => none

structure MetricRegistry where
  semantic_models : List (String × SemanticModel) := []
  metrics : List (String × Metric) := []
  measure_to_model : List (String × String) := []
  dimension_to_model : List (String × String) := []
deriving DecidableEq, Repr

def emptyRegistry : MetricRegistry := {}

/-- `get_metric` (raises `KeyError` in Python when absent). -/
def MetricRegistry.get_metric (reg : MetricRegistry) (name : String) : Option Metric :=
  reg.metrics.lookup name

/-- `get_semantic_model`. -/
def MetricRegistry.get_semantic_model (reg : MetricRegistry) (name : String) :
    Option SemanticModel :=
  reg.semantic_models.lookup name

/-- `get_model_for_measure`: reverse-index lookup. The Python code tests
`if not model_name`, so an empty owner name is treated as absent. -/
def MetricRegistry.get_model_for_measure (reg : MetricRegistry) (measure_name : String) :
    Option SemanticModel :=
  match reg.measure_to_model.lookup measure_name with
  | none => none
  | some mn => if mn = "" then none else reg.semantic_models.lookup mn

/-- `get_model_for_dimension`. -/
def MetricRegistry.get_model_for_dimension (reg : MetricRegistry) (dimension_name : String) :
    Option SemanticModel :=
  match reg.dimension_to_model.lookup dimension_name with
  | none => none
  | some mn => if mn = "" then none else reg.semantic_models.lookup mn

/-- `get_measure`: two-step lookup (model, then measure inside the model). -/
def MetricRegistry.get_measure (reg : MetricRegistry) (measure_name : String) :
    Option Measure :=
  match reg.get_model_for_measure measure_name with
  | none => none
  | some model => model.get_measure measure_name

/-- `get_dimension`. -/
def MetricRegistry.get_dimension (reg : MetricRegistry) (dimension_name : String) :
    Option Dimension :=
  match reg.get_model_for_dimension dimension_name with
  | none => none
  | some model => model.get_dimension dimension_name

/-- A metric declaration as parsed from YAML, before `_parse_metric` turns it
into a validated `Metric`. -/
structure RawMetric where
  name : String
  description : Option String := none
  type' : MetricType
  type_params : MetricTypeParams
  filter : Option String := none
deriving DecidableEq, Repr

/-- One YAML document: the `semantic_models` and `metrics` collections.
An empty document is valid and contributes nothing. -/
structure Document where
  semantic_models : List SemanticModel := []
  metrics : List RawMetric := []
deriving DecidableEq, Repr

/-- `_parse_metric`: constructs the `Metric`; pydantic's construction-time
validator rejects a parameter variant that does not match the type tag. -/
def parse_metric (raw : RawMetric) : Except LoadError Metric :=
  match mkMetric raw.name raw.description raw.type' raw.type_params raw.filter with
  | some m => .ok m
  | none => .error (.typeParamsMismatch raw.name)

/-- The `semantic_models` loop of `_load_file`: inserts models one at a time,
failing on a duplicate name and leaving earlier insertions in place. -/
def insert_models : MetricRegistry → List SemanticModel → MetricRegistry × Option LoadError
  | reg, [] => (reg, none)
  | reg, model :: rest =>
    if (reg.semantic_models.lookup model.name).isSome then
      (reg, some (.duplicateSemanticModel model.name))
    else
      insert_models
        { reg with semantic_models := reg.semantic_models ++ [(model.name, model)] } rest

/-- The `metrics` loop of `_load_file`: parse, duplicate-check, insert. -/
def insert_metrics : MetricRegistry → List RawMetric → MetricRegistry × Option LoadError
  | reg, [] => (reg, none)
  | reg, raw :: rest =>
    match parse_metric raw with
    | .error e => (reg, some e)
    | .ok metric =>
      if (reg.metrics.lookup metric.name).isSome then
        (reg, some (.duplicateMetric metric.name))
      else
        insert_metrics { reg with metrics := reg.metrics ++ [(metric.name, metric)] } rest

/-- `_load_file`: models first (metrics depend on them), then metrics. -/
def load_file (reg : MetricRegistry) (doc : Document) : MetricRegistry × Option LoadError :=
  match insert_models reg doc.semantic_models with
  | (reg1, some e) => (reg1, some e)
  | (reg1, none) => insert_metrics reg1 doc.metrics

/-- The file loop of `load_directory`: stops at the first failing file,
keeping the mutations made so far. -/
def load_files : MetricRegistry → List Document → MetricRegistry × Option LoadError
  | reg, [] => (reg, none)
  | reg, doc :: rest =>
    match load_file reg doc with
    | (reg1, some e) => (reg1, some e)
    | (reg1, none) => load_files reg1 rest

/-- The measures loop of `_build_indexes` for one model: global uniqueness of
measure names, index entries appended one at a time. -/
def index_measures (modelName : String) :
    List Measure → List (String × String) → List (String × String) × Option LoadError
  | [], idx => (idx, none)
  | ms :: rest, idx =>
    match idx.lookup ms.name with
    | some owner => (idx, some (.duplicateMeasureName ms.name owner modelName))
    | none => index_measures modelName rest (idx ++ [(ms.name, modelName)])

/-- The dimensions loop of `_build_indexes` for one model. -/
def index_dimensions (modelName : String) :
    List Dimension → List (String × String) → List (String × String) × Option LoadError
  | [], idx => (idx, none)
  | d :: rest, idx =>
    match idx.lookup d.name with
    | some owner => (idx, some (.duplicateDimensionName d.name owner modelName))
    | none => index_dimensions modelName rest (idx ++ [(d.name, modelName)])

/-- The model loop of `_build_indexes`. -/
def index_models : List (String × SemanticModel) → List (String × String) →
    List (String × String) → (List (String × String) × List (String × String)) × Option LoadError
  | [], mIdx, dIdx => ((mIdx, dIdx), none)
  | (mname, model) :: rest, mIdx, dIdx =>
    match index_measures mname model.measures mIdx with
    | (mIdx1, some e) => ((mIdx1, dIdx), some e)
    | (mIdx1, none) =>
      match index_dimensions mname model.dimensions dIdx with
      | (dIdx1, some e) => ((mIdx1, dIdx1), some e)
      | (dIdx1, none) => index_models rest mIdx1 dIdx1

/-- `_build_indexes`: builds the two reverse indices in model insertion
order; on failure the partially built indices are kept (the Python method
mutates `self` as it goes). -/
def build_indexes (reg : MetricRegistry) : MetricRegistry × Option LoadError :=
  match index_models reg.semantic_models reg.measure_to_model reg.dimension_to_model with
  | ((mIdx, dIdx), err) =>
    ({ reg with measure_to_model := mIdx, dimension_to_model := dIdx }, err)

/-- The reference check `_validate_references` performs for one metric.
The `| _, _ => .ok ()` arm mirrors the `isinstance`-guard `continue`
branches (unreachable for metrics built by `_parse_metric`). -/
def validate_one (reg : MetricRegistry) (name : String) (m : Metric) :
    Except LoadError Unit :=
  match m.type', m.type_params with
  | .simple, .simple p =>
    if (reg.measure_to_model.lookup p.measure).isNone then
      .error (.unknownMeasure name p.measure)
    else .ok ()
  | .derived, .derived p =>
    match p.metrics.find? (fun r => (reg.metrics.lookup r).isNone) with
    | some r => .error (.unknownMetric name r)
    | none => .ok ()
  | .ratio, .ratio p =>
    if (reg.metrics.lookup p.numerator).isNone then
      .error (.unknownNumerator name p.numerator)
    else if (reg.metrics.lookup p.denominator).isNone then
      .error (.unknownDenominator name p.denominator)
    else .ok ()
  | .cumulative, .cumulative p =>
    if (reg.measure_to_model.lookup p.measure).isNone then
      .error (.unknownCumulativeMeasure name p.measure)
    else .ok ()
  | _, _ => .ok ()

/-- The metric loop of `_validate_references`: first failure aborts. -/
def validate_list (reg : MetricRegistry) : List (String × Metric) → Except LoadError Unit
  | [] => .ok ()
  | (n, m) :: rest =>
    match validate_one reg n m with
    | .error e => .error e
    | .ok () => validate_list reg rest

/-- `_validate_references`. -/
def validate_references (reg : MetricRegistry) : Except LoadError Unit :=
  validate_list reg reg.metrics

/-- `load_directory` on the already-parsed YAML documents: merge all files,
build indexes, validate references. The registry value accumulates mutations
made before any failure point (the Python method mutates `self` in place and
performs no rollback). An empty document list is the "No YAML files found"
error. -/
def load_directory (docs : List Document) : MetricRegistry × Option LoadError :=
  if docs.isEmpty then (emptyRegistry, some .noDefinitionsFound)
  else
    match load_files emptyRegistry docs with
    | (reg, some e) => (reg, some e)
    | (reg, none) =>
      match build_indexes reg with
      | (reg2, some e) => (reg2, some e)
      | (reg2, none) =>
        match validate_references reg2 with
        | .error e => (reg2, some e)
        | .ok _ => (reg2, none)

/-! ## SQL compiler (`compiler/sql_builder.py`) -/

/-- Python dict assignment `d[k] = v`: an existing key keeps its position and
gets the new value, a new key is appended. -/
def dictInsert {α : Type} (d : List (String × α)) (k : String) (v : α) :
    List (String × α) :=
  if d.any (fun p => p.1 == k) then
    d.map (fun p => if p.1 == k then (k, v) else p)
  else d ++ [(k, v)]

/-- Python `set.add` concretized as an insertion-ordered duplicate-free list. -/
def set_add (l : List String) (x : String) : List String :=
  if l.contains x then l else l ++ [x]

/-- Python `str.replace` on char lists, with an explicit step bound (the
pattern is nonempty whenever this is called, so `s.length` steps suffice):
all non-overlapping occurrences, scanning left to right. -/
def pyReplaceFuel (pat rep : List Char) : Nat → List Char → List Char
  | 0, s => s
  | n + 1, s =>
    match s with
    | [] => []
    | c :: rest =>
      if s.take pat.length = pat ∧ pat ≠ [] then
        rep ++ pyReplaceFuel pat rep n (s.drop pat.length)
      else
        c :: pyReplaceFuel pat rep n rest

/-- Python `str.replace` on char lists, including the empty-pattern case
(`"ab".replace("", "X") = "XaXbX"`). -/
def pyReplaceChars (s pat rep : List Char) : List Char :=
  if pat = [] then rep ++ s.foldr (fun c acc => c :: (rep ++ acc)) []
  else pyReplaceFuel pat rep s.length s

/-- Python `s.replace(pat, rep)`. -/
def pyReplace (s pat rep : String) : String :=
  String.mk (pyReplaceChars s.data pat.data rep.data)

/-- Compile-time failures: one constructor per distinct raise site reachable
from `SQLCompiler.compile` (`KeyError: Unknown metric`, `KeyError: Unknown
measure`, `ValueError: No tables found for query`); `recursionLimit` is the
fuel artifact standing for Python's unbounded recursion on cyclic
derived-metric graphs, and `attributeMismatch` stands for the
`AttributeError` a type-tag/params mismatch would produce (unreachable for
registry-validated metrics). -/
inductive CompileError where
  | unknownMetric (name : String)
  | unknownMeasure (name : String)
  | noTables
  | recursionLimit
  | attributeMismatch
deriving DecidableEq, Repr

/-- The compiler-internal intermediate representation `ResolvedMetric`. -/
inductive ResolvedMetric where
  | mk (name : String) (expr : String) (model : Option SemanticModel)
      (filter : Option String) (is_aggregate : Bool)
      (sub_metrics : List (String × ResolvedMetric))

def ResolvedMetric.name : ResolvedMetric → String
  | .mk n _ _ _ _ _ => n

def ResolvedMetric.expr : ResolvedMetric → String
  | .mk _ e _ _ _ _ => e

def ResolvedMetric.model : ResolvedMetric → Option SemanticModel
  | .mk _ _ m _ _ _ => m

def ResolvedMetric.filter : ResolvedMetric → Option String
  | .mk _ _ _ f _ _ => f

def ResolvedMetric.is_aggregate : ResolvedMetric → Bool
  | .mk _ _ _ _ b _ => b

def ResolvedMetric.sub_metrics : ResolvedMetric → List (String × ResolvedMetric)
  | .mk _ _ _ _ _ s => s

/-- `SQLCompiler.AGG_MAP` (count_distinct maps to COUNT, the DISTINCT
keyword is added separately in `_build_measure_expr`). -/
def agg_map : AggregationType → String
  | .sum => "SUM"
  | .count => "COUNT"
  | .count_distinct => "COUNT"
  | .avg => "AVG"
  | .min => "MIN"
  | .max => "MAX"

/-- `_build_measure_expr`: aggregation wrapping with the optional
`CASE WHEN` filter; `if filter_expr:` is Python truthiness, so an empty
filter string behaves like no filter. -/
def build_measure_expr (measure : Measure) (filter_expr : Option String) : String :=
  let agg_func := agg_map measure.agg
  let col_expr := measure.expr
  if measure.agg = .count_distinct then
    match filter_expr with
    | some f =>
      if f = "" then agg_func ++ "(DISTINCT " ++ col_expr ++ ")"
      else agg_func ++ "(DISTINCT CASE WHEN " ++ f ++ " THEN " ++ col_expr ++ " END)"
    | none => agg_func ++ "(DISTINCT " ++ col_expr ++ ")"
  else
    match filter_expr with
    | some f =>
      if f = "" then agg_func ++ "(" ++ col_expr ++ ")"
      else agg_func ++ "(CASE WHEN " ++ f ++ " THEN " ++ col_expr ++ " END)"
    | none => agg_func ++ "(" ++ col_expr ++ ")"

/-- The substitution loop of `_resolve_derived_metric`: for each entry of
the (insertion-ordered) sub-metric map, plain-substring-replace the metric
name by the parenthesized resolved expression. -/
def substitute (expr : String) (subs : List (String × ResolvedMetric)) : String :=
  subs.foldl (fun e p => pyReplace e p.1 ("(" ++ p.2.expr ++ ")")) expr

/-- The recursive-resolution loop of `_resolve_derived_metric`: look up and
resolve every referenced metric, building the name-keyed sub-metric map. -/
def resolve_subs (reg : MetricRegistry)
    (recur : Metric → Except CompileError ResolvedMetric) :
    List String → List (String × ResolvedMetric) →
    Except CompileError (List (String × ResolvedMetric))
  | [], acc => .ok acc
  | ref :: rest, acc =>
    match reg.get_metric ref with
    | none => .error (.unknownMetric ref)
    | some rm =>
      match recur rm with
      | .error e => .error e
      | .ok r => resolve_subs reg recur rest (dictInsert acc ref r)

/-- One step of `_resolve_single_metric`'s type dispatch, parametrized by the
resolver used for sub-metrics (`_resolve_simple_metric`,
`_resolve_derived_metric`, `_resolve_ratio_metric`,
`_resolve_cumulative_metric`). -/
def resolveStep (reg : MetricRegistry)
    (recur : Metric → Except CompileError ResolvedMetric) (m : Metric) :
    Except CompileError ResolvedMetric :=
  match m.type', m.type_params with
  | .simple, .simple p =>
    match reg.get_model_for_measure p.measure with
    | none => .error (.unknownMeasure p.measure)
    | some model =>
      match reg.get_measure p.measure with
      | none => .error (.unknownMeasure p.measure)
      | some measure =>
        .ok (.mk m.name (build_measure_expr measure m.filter) (some model) m.filter true [])
  | .derived, .derived p =>
    match resolve_subs reg recur p.metrics [] with
    | .error e => .error e
    | .ok subs =>
      let model := match subs with
        | [] => none
        | q :: _ => q.2.model
      .ok (.mk m.name (substitute p.expr subs) model m.filter false subs)
  | .ratio, .ratio p =>
    match reg.get_metric p.numerator with
    | none => .error (.unknownMetric p.numerator)
    | some nm =>
      match reg.get_metric p.denominator with
      | none => .error (.unknownMetric p.denominator)
      | some dm =>
        match recur nm with
        | .error e => .error e
        | .ok nr =>
          match recur dm with
          | .error e => .error e
          | .ok dr =>
            .ok (.mk m.name
              ("(" ++ nr.expr ++ ") * 1.0 / NULLIF(" ++ dr.expr ++ ", 0)")
              nr.model m.filter false
              (dictInsert (dictInsert [] p.numerator nr) p.denominator dr))
  | .cumulative, .cumulative p =>
    match reg.get_model_for_measure p.measure with
    | none => .error (.unknownMeasure p.measure)
    | some model =>
      match reg.get_measure p.measure with
      | none => .error (.unknownMeasure p.measure)
      | some measure =>
        .ok (.mk m.name
          ("SUM(" ++ build_measure_expr measure m.filter ++ ") OVER (ORDER BY 1)")
          (some model) m.filter false [])
  | _, _ => .error .attributeMismatch

/-- `_resolve_single_metric` with fuel: the sources recurse through the
registry without any cycle guard, so fuel only bounds the divergent
cyclic-graph case the spec already flags as unchecked. -/
def resolve_single (reg : MetricRegistry) : Nat → Metric → Except CompileError ResolvedMetric
  | 0, _ => .error .recursionLimit
  | fuel + 1, m => resolveStep reg (resolve_single reg fuel) m

/-- The loop of `_resolve_metrics`: a name-keyed map of resolutions built in
request order (a repeated name overwrites its own entry). -/
def resolve_metrics_aux (reg : MetricRegistry) (fuel : Nat) :
    List String → List (String × ResolvedMetric) →
    Except CompileError (List (String × ResolvedMetric))
  | [], acc => .ok acc
  | n :: rest, acc =>
    match reg.get_metric n with
    | none => .error (.unknownMetric n)
    | some m =>
      match resolve_single reg fuel m with
      | .error e => .error e
      | .ok r => resolve_metrics_aux reg fuel rest (dictInsert acc n r)

/-- `_resolve_metrics`. -/
def resolve_metrics (reg : MetricRegistry) (fuel : Nat) (metric_names : List String) :
    Except CompileError (List (String × ResolvedMetric)) :=
  resolve_metrics_aux reg fuel metric_names []

/-- `_build_dimension_expr`: grain-aware dimension expression; a dimension
absent from the registry is emitted as a bare identifier, `expr or name`
and `and time_grain` follow Python truthiness. -/
def build_dimension_expr (reg : MetricRegistry) (dim_name : String)
    (time_grain : Option String) : String :=
  match reg.get_dimension dim_name with
  | none => dim_name
  | some d =>
    let col_expr := match d.expr with
      | some e => if e = "" then dim_name else e
      | none => dim_name
    match d.type' with
    | .time =>
      match time_grain with
      | some g =>
        if g = "" then col_expr
        else "DATE_TRUNC(\x27" ++ g ++ "\x27, " ++ col_expr ++ ")"
      | none => col_expr
    | .categorical => col_expr

/-- The per-metric part of `_get_required_tables`: the owning table of a
resolved metric plus (one level, as in the source) its sub-metrics. -/
def tables_of_resolved (acc : List String) (r : ResolvedMetric) : List String :=
  let acc := match r.model with
    | some m => set_add acc m.get_table_name
    | none => acc
  r.sub_metrics.foldl
    (fun a q =>
      match q.2.model with
      | some m => set_add a m.get_table_name
      | none => a)
    acc

/-- `_get_required_tables`: tables from metrics (and their sub-metrics),
then tables from registry-known dimensions (unknown dimensions tolerated). -/
def get_required_tables (reg : MetricRegistry)
    (resolved : List (String × ResolvedMetric)) (dimensions : List String) : List String :=
  let t := resolved.foldl (fun a p => tables_of_resolved a p.2) []
  dimensions.foldl
    (fun a d =>
      match reg.get_model_for_dimension d with
      | some m => set_add a m.get_table_name
      | none => a)
    t

/-- `_build_from_clause`: empty set raises; a set with more than one entry
falls through a `pass` and the first element (`next(iter(tables))`) is
returned without any error. -/
def build_from_clause (tables : List String) : Except CompileError String :=
  match tables with
  | [] => .error .noTables
  | t :: _ => .ok t

/-- `_build_select_exprs`: dimensions first, then metrics, each aliased. -/
def build_select_exprs (reg : MetricRegistry)
    (resolved : List (String × ResolvedMetric)) (q : MetricQuery) : List String :=
  q.dimensions.map (fun d => build_dimension_expr reg d q.time_grain ++ " AS " ++ d)
    ++ resolved.map (fun p => p.2.expr ++ " AS " ++ p.1)

/-- `_find_time_dimension`: first requested dimension that the registry
knows and that has time kind. -/
def find_time_dimension (reg : MetricRegistry) : List String → Option String
  | [] => none
  | d :: rest =>
    match reg.get_dimension d with
    | some dim => if dim.type' = .time then some d else find_time_dimension reg rest
    | none => find_time_dimension reg rest

/-- `_build_where_conditions`: caller filters in order, then inclusive date
bounds against the first time dimension when one is present among the
requested dimensions. (The inner `none` arm of the dimension lookup is
unreachable because `find_time_dimension` only returns known dimensions.) -/
def build_where_conditions (reg : MetricRegistry)
    (_resolved : List (String × ResolvedMetric)) (q : MetricQuery) : List String :=
  let conditions := q.filters
  if q.start_date.isSome || q.end_date.isSome then
    match find_time_dimension reg q.dimensions with
    | none => conditions
    | some td =>
      match reg.get_dimension td with
      | none => conditions
      | some dim =>
        let col := match dim.expr with
          | some e => if e = "" then td else e
          | none => td
        let conditions := conditions ++
          (match q.start_date with
           | some s => [col ++ " >= \x27" ++ s ++ "\x27"]
           | none => [])
        conditions ++
          (match q.end_date with
           | some e => [col ++ " <= \x27" ++ e ++ "\x27"]
           | none => [])
  else conditions

/-- `_build_group_by_exprs`. -/
def build_group_by_exprs (reg : MetricRegistry) (q : MetricQuery) : List String :=
  if q.dimensions.isEmpty then []
  else q.dimensions.map (fun d => build_dimension_expr reg d q.time_grain)

/-- `_build_order_by_exprs`: caller order verbatim, else dimensions, else
nothing. -/
def build_order_by_exprs (reg : MetricRegistry) (q : MetricQuery) : List String :=
  if !q.order_by.isEmpty then q.order_by
  else if !q.dimensions.isEmpty then
    q.dimensions.map (fun d => build_dimension_expr reg d q.time_grain)
  else []

/-- The clause list `_assemble_query` builds before joining with newlines;
`if limit:` is Python truthiness on `int | None`, true exactly for a
supplied nonzero value. -/
def assemble_parts (select_exprs : List String) (from_clause : String)
    (where_conditions group_by_exprs order_by_exprs : List String)
    (limit : Option Int) : List String :=
  ["SELECT\n  " ++ String.intercalate ",\n  " select_exprs,
   "FROM " ++ from_clause]
  ++ (if where_conditions.isEmpty then []
      else ["WHERE " ++ String.intercalate " AND " where_conditions])
  ++ (if group_by_exprs.isEmpty then []
      else ["GROUP BY " ++ String.intercalate ", " group_by_exprs])
  ++ (if order_by_exprs.isEmpty then []
      else ["ORDER BY " ++ String.intercalate ", " order_by_exprs])
  ++ (match limit with
      | none => []
      | some n => if n = 0 then [] else ["LIMIT " ++ toString n])

/-- `_assemble_query`. -/
def assemble_query (select_exprs : List String) (from_clause : String)
    (where_conditions group_by_exprs order_by_exprs : List String)
    (limit : Option Int) : String :=
  String.intercalate "\n"
    (assemble_parts select_exprs from_clause where_conditions group_by_exprs
      order_by_exprs limit)

/-- `SQLCompiler.compile`: the strictly ordered pipeline. The final
`_format_sql` step is the external sqlglot collaborator (cosmetic only,
degrades to the unformatted string), so the assembled string is returned. -/
def compile (reg : MetricRegistry) (fuel : Nat) (q : MetricQuery) :
    Except CompileError String :=
  match resolve_metrics reg fuel q.metrics with
  | .error e => .error e
  | .ok resolved =>
    let tables := get_required_tables reg resolved q.dimensions
    let select_exprs := build_select_exprs reg resolved q
    match build_from_clause tables with
    | .error e => .error e
    | .ok from_clause =>
      let where_conditions := build_where_conditions reg resolved q
      let group_by_exprs := build_group_by_exprs reg q
      let order_by_exprs := build_order_by_exprs reg q
      .ok (assemble_query select_exprs from_clause where_conditions group_by_exprs
        order_by_exprs q.limit)

/-! ## Spec-side definition for the substitution-refinement claim -/

def isIdentChar (c : Char) : Bool := c.isAlphanum || c = '_'

/-- Splits a char list into maximal identifier runs and single
non-identifier chars (accumulator holds the current run, reversed). -/
def tokenizeAux : List Char → List Char → List (List Char)
  | acc, [] => if acc.isEmpty then [] else [acc.reverse]
  | acc, c :: rest =>
    if isIdentChar c then tokenizeAux (c :: acc) rest
    else (if acc.isEmpty then [] else [acc.reverse]) ++ [c] :: tokenizeAux [] rest

def tokenizeIdents (s : List Char) : List (List Char) := tokenizeAux [] s

/-- Modelled from the spec: the token-aware substitution the spec requires
for derived metrics ("match whole identifiers, not substrings"): each
maximal identifier token equal to a referenced metric name is replaced by
the parenthesized resolved sub-expression; identifiers merely containing a
referenced name are untouched. This is the SPEC's semantics, kept separate
so the source's plain-replace semantics can be compared against it. -/
def substituteTokenAware (expr : String) (subs : List (String × String)) : String :=
  String.mk
    (List.flatten
      ((tokenizeIdents expr.data).map
        (fun tok =>
          match subs.find? (fun p => p.1.data == tok) with
          | some p => ("(" ++ p.2 ++ ")").data
          | none => tok)))

/-! ## Concrete fixtures used by counterexamples and witnesses -/

/-- An `orders` model with a single summed measure. -/
def ordersModel : SemanticModel :=
  { name := "orders", table := "orders", primary_entity := "order_id",
    measures := [{ name := "order_amount", agg := .sum, expr := "amount" }],
    dimensions := [{ name := "country", type' := .categorical }] }

/-- A `users` model with a count measure, on a second table. -/
def usersModel : SemanticModel :=
  { name := "users", table := "users", primary_entity := "user_id",
    measures := [{ name := "user_count", agg := .count, expr := "user_id" }] }

def revenueMetric : Metric :=
  { name := "revenue", type' := .simple, type_params := .simple ⟨"order_amount"⟩ }

def userTotalMetric : Metric :=
  { name := "user_total", type' := .simple, type_params := .simple ⟨"user_count"⟩ }

def totalMetric : Metric :=
  { name := "total", type' := .simple, type_params := .simple ⟨"order_amount"⟩ }

def rateMetric : Metric :=
  { name := "rate", type' := .ratio, type_params := .ratio ⟨"revenue", "total"⟩ }

/-- Registry spanning two source tables (used for the multi-table claim). -/
def regTwoTables : MetricRegistry :=
  { semantic_models := [("orders", ordersModel), ("users", usersModel)],
    metrics := [("revenue", revenueMetric), ("user_total", userTotalMetric)],
    measure_to_model := [("order_amount", "orders"), ("user_count", "users")],
    dimension_to_model := [("country", "orders")] }

def qTwoTables : MetricQuery := { metrics := ["revenue", "user_total"] }

/-- Single-table registry with a ratio metric (used for the ratio and
duplicate-metric claims). -/
def regOrders : MetricRegistry :=
  { semantic_models := [("orders", ordersModel)],
    metrics := [("revenue", revenueMetric), ("total", totalMetric), ("rate", rateMetric)],
    measure_to_model := [("order_amount", "orders")],
    dimension_to_model := [("country", "orders")] }

/-- Fixtures for the substitution claim: a derived metric whose expression
contains the identifier `revenue` while referencing the metric `rev`, a
textual prefix of it. -/
def prefixModel : SemanticModel :=
  { name := "t", table := "tbl", primary_entity := "id",
    measures := [{ name := "m1", agg := .sum, expr := "x" }] }

def revMetric : Metric :=
  { name := "rev", type' := .simple, type_params := .simple ⟨"m1"⟩ }

def badDerivedMetric : Metric :=
  { name := "bad", type' := .derived,
    type_params := .derived ⟨"revenue + rev", ["rev"]⟩ }

def regPrefix : MetricRegistry :=
  { semantic_models := [("t", prefixModel)],
    metrics := [("rev", revMetric), ("bad", badDerivedMetric)],
    measure_to_model := [("m1", "t")] }

/-- A document whose only metric references a measure that no model
defines (used for the load-atomicity and unresolved-reference claims). -/
def docBadRef : Document :=
  { semantic_models :=
      [{ name := "orders", table := "orders", primary_entity := "order_id" }],
    metrics :=
      [{ name := "revenue", type' := .simple,
         type_params := .simple ⟨"nonexistent_measure"⟩ }] }

/-- Registry state after merging `docBadRef` (before index building). -/
def regBadRefMerged : MetricRegistry := (load_files emptyRegistry [docBadRef]).1

/-- Registry state after index building over `regBadRefMerged`. -/
def regBadRefIndexed : MetricRegistry := (build_indexes regBadRefMerged).1

/-- The resolution of `revenue` over `regOrders`. -/
def rmRevenue : ResolvedMetric :=
  .mk "revenue" "SUM(amount)" (some ordersModel) none true []

/-- The resolution of `total` over `regOrders`. -/
def rmTotal : ResolvedMetric :=
  .mk "total" "SUM(amount)" (some ordersModel) none true []

/-- The resolution of the ratio metric `rate` over `regOrders`. -/
def rmRate : ResolvedMetric :=
  .mk "rate" "(SUM(amount)) * 1.0 / NULLIF(SUM(amount), 0)" (some ordersModel)
    none false [("revenue", rmRevenue), ("total", rmTotal)]

/-- The resolution of `rev` over `regPrefix`. -/
def rmRev : ResolvedMetric := .mk "rev" "SUM(x)" (some prefixModel) none true []

/-- The resolution of the derived metric `bad` over `regPrefix`: the
substitution has corrupted the identifier `revenue`. -/
def rmBad : ResolvedMetric :=
  .mk "bad" "(SUM(x))enue + (SUM(x))" (some prefixModel) none false [("rev", rmRev)]

/-- Query requesting the same metric twice. -/
def qDup : MetricQuery := { metrics := ["revenue", "revenue"] }

instance {ε α : Type} [DecidableEq ε] [DecidableEq α] : DecidableEq (Except ε α) := by
  intro a b
  cases a <;> cases b
  case error.error e e' =>
    exact if h : e = e' then .isTrue (by rw [h]) else .isFalse (by simp [h])
  case ok.ok a a' =>
    exact if h : a = a' then .isTrue (by rw [h]) else .isFalse (by simp [h])
  case error.ok e a => exact .isFalse (by simp)
  case ok.error a e => exact .isFalse (by simp)

/-! # Theorems -/

/-- Claim C5: for every measure of aggregation kind `count_distinct` and
every nonempty filter fragment, `_build_measure_expr` produces
`COUNT(DISTINCT CASE WHEN <filter> THEN <expr> END)` — `DISTINCT`
immediately inside the aggregate's parentheses, directly before the
`CASE WHEN` expression that replaces the distinct target, never outside the
aggregate call. -/
theorem C5_count_distinct_filter_shape (measure : Measure) (f : String)
    (hagg : measure.agg = .count_distinct) (hf : f ≠ "") :
    build_measure_expr measure (some f) =
      "COUNT(DISTINCT CASE WHEN " ++ f ++ " THEN " ++ measure.expr ++ " END)" := by
  simp [build_measure_expr, hagg, hf, agg_map]

/-- Witness for C5 at a concrete measure and filter. -/
theorem C5_witness :
    build_measure_expr { name := "buyers", agg := .count_distinct, expr := "user_id" }
        (some "status = \x27done\x27") =
      "COUNT(DISTINCT CASE WHEN status = \x27done\x27 THEN user_id END)" :=
  C5_count_distinct_filter_shape
    { name := "buyers", agg := .count_distinct, expr := "user_id" }
    "status = \x27done\x27" rfl (by decide)

/-- Claim C4: for every ratio metric whose resolution succeeds, the resolved
SQL expression is exactly `(numerator_expr) * 1.0 / NULLIF(denominator_expr,
0)` where the two sub-expressions are the recursively resolved expressions
of the numerator and denominator metrics — the `NULLIF(..., 0)` guard always
surrounds the denominator and a bare division is never produced. -/
theorem C4_ratio_nullif_guard (reg : MetricRegistry) (fuel : Nat) (m : Metric)
    (p : RatioMetricParams) (r : ResolvedMetric)
    (hm : m.type' = .ratio) (hp : m.type_params = .ratio p)
    (h : resolve_single reg (fuel + 1) m = .ok r) :
    ∃ nm dm nr dr,
      reg.get_metric p.numerator = some nm ∧
      reg.get_metric p.denominator = some dm ∧
      resolve_single reg fuel nm = .ok nr ∧
      resolve_single reg fuel dm = .ok dr ∧
      r.expr = "(" ++ nr.expr ++ ") * 1.0 / NULLIF(" ++ dr.expr ++ ", 0)" := by
  rw [resolve_single] at h
  unfold resolveStep at h
  rw [hm, hp] at h
  dsimp only at h
  cases hnm : reg.get_metric p.numerator with
  | none => simp only [hnm] at h; exact absurd h (by simp)
  | some nm =>
    simp only [hnm] at h
    cases hdm : reg.get_metric p.denominator with
    | none => simp only [hdm] at h; exact absurd h (by simp)
    | some dm =>
      simp only [hdm] at h
      cases hnr : resolve_single reg fuel nm with
      | error e => simp only [hnr] at h; exact absurd h (by simp)
      | ok nr =>
        simp only [hnr] at h
        cases hdr : resolve_single reg fuel dm with
        | error e => simp only [hdr] at h; exact absurd h (by simp)
        | ok dr =>
          simp only [hdr, Except.ok.injEq] at h
          refine ⟨nm, dm, nr, dr, rfl, rfl, hnr, hdr, ?_⟩
          rw [← h]
          rfl

/-- Witness for C4: the concrete ratio metric `rate` over `regOrders`. -/
theorem C4_witness :
    ∃ nm dm nr dr,
      regOrders.get_metric (RatioMetricParams.mk "revenue" "total").numerator = some nm ∧
      regOrders.get_metric (RatioMetricParams.mk "revenue" "total").denominator = some dm ∧
      resolve_single regOrders 1 nm = .ok nr ∧
      resolve_single regOrders 1 dm = .ok dr ∧
      rmRate.expr = "(" ++ nr.expr ++ ") * 1.0 / NULLIF(" ++ dr.expr ++ ", 0)" :=
  C4_ratio_nullif_guard regOrders 1 rateMetric ⟨"revenue", "total"⟩ rmRate rfl rfl rfl

/-- Counterexample to claim C2 (token-aware substitution): over `regPrefix`
the derived metric `bad` has expression `revenue + rev` and references the
metric `rev`, a textual prefix of the identifier `revenue`. The source's
substitution corrupts `revenue` into `(SUM(x))enue`, whereas the spec's
token-aware substitution (`substituteTokenAware`) leaves it intact. -/
theorem C2_counterexample :
    (resolve_single regPrefix 2 badDerivedMetric).map ResolvedMetric.expr =
        .ok "(SUM(x))enue + (SUM(x))" ∧
      substituteTokenAware "revenue + rev" [("rev", "SUM(x)")] = "revenue + (SUM(x))" ∧
      ("(SUM(x))enue + (SUM(x))" : String) ≠ "revenue + (SUM(x))" := by
  refine ⟨rfl, rfl, ?_⟩
  decide

/-- Claim C2 amended: derived-metric substitution is NOT token-aware; the
source performs plain sequential substring replacement (`str.replace`): the
resolved expression of a derived metric is the fold of `pyReplace` over the
insertion-ordered sub-metric map, replacing every substring occurrence of
each referenced metric name (so a referenced name that is a prefix or
suffix of a longer identifier corrupts that identifier, as the
counterexample shows). -/
theorem C2_substitution_is_plain_replace (reg : MetricRegistry) (fuel : Nat)
    (m : Metric) (p : DerivedMetricParams) (r : ResolvedMetric)
    (hm : m.type' = .derived) (hp : m.type_params = .derived p)
    (h : resolve_single reg (fuel + 1) m = .ok r) :
    ∃ subs, resolve_subs reg (resolve_single reg fuel) p.metrics [] = .ok subs ∧
      r.expr = subs.foldl (fun e q => pyReplace e q.1 ("(" ++ q.2.expr ++ ")")) p.expr := by
  rw [resolve_single] at h
  unfold resolveStep at h
  rw [hm, hp] at h
  dsimp only at h
  cases hs : resolve_subs reg (resolve_single reg fuel) p.metrics [] with
  | error e => simp only [hs] at h; exact absurd h (by simp)
  | ok subs =>
    simp only [hs, Except.ok.injEq] at h
    refine ⟨subs, rfl, ?_⟩
    rw [← h]
    rfl

/-- Witness for the amended C2 at the concrete fixtures. -/
theorem C2_witness :
    ∃ subs, resolve_subs regPrefix (resolve_single regPrefix 1) ["rev"] [] = .ok subs ∧
      rmBad.expr =
        subs.foldl (fun e q => pyReplace e q.1 ("(" ++ q.2.expr ++ ")")) "revenue + rev" :=
  C2_substitution_is_plain_replace regPrefix 1 badDerivedMetric
    ⟨"revenue + rev", ["rev"]⟩ rmBad rfl rfl rfl

/-- Counterexample to claim C1 (multi-table queries must fail): over
`regTwoTables` the query for `revenue` (from table `orders`) and
`user_total` (from table `users`) needs two distinct source tables, yet
`compile` succeeds — no `UnsupportedMultiTableQuery` error exists in the
source; `_build_from_clause` silently uses one of the tables. -/
theorem C1_counterexample :
    (resolve_metrics regTwoTables 2 qTwoTables.metrics).map
        (fun rs => (get_required_tables regTwoTables rs qTwoTables.dimensions).length) =
        .ok 2 ∧
      (compile regTwoTables 2 qTwoTables).isOk = true := by
  exact ⟨by decide, by decide⟩

/-- Claim C1 amended: when the collected table set has more than one entry,
compilation does not fail; `_build_from_clause` silently returns one of the
collected tables (the first, under the insertion-order concretization of the
Python set) — only an empty table set is an error. -/
theorem C1_multi_table_silently_picks (tables : List String)
    (h : 1 < tables.length) : ∃ t ∈ tables, build_from_clause tables = .ok t := by
  match tables with
  | [] => exact absurd h (by simp)
  | t :: rest => exact ⟨t, List.mem_cons_self t rest, rfl⟩

/-- Witness for the amended C1 at a concrete two-table set. -/
theorem C1_witness : ∃ t ∈ ["orders", "users"], build_from_clause ["orders", "users"] = .ok t :=
  C1_multi_table_silently_picks ["orders", "users"] (by decide)

/-- If no requested dimension is a registry-known time dimension,
`_find_time_dimension` finds nothing. -/
theorem find_time_dimension_eq_none (reg : MetricRegistry) (dims : List String)
    (h : ∀ d ∈ dims, ∀ dim, reg.get_dimension d = some dim → dim.type' ≠ .time) :
    find_time_dimension reg dims = none := by
  induction dims with
  | nil => rfl
  | cons d rest ih =>
    rw [find_time_dimension]
    cases hd : reg.get_dimension d with
    | none => exact ih (fun d' hd' => h d' (List.mem_cons_of_mem d hd'))
    | some dim =>
      have : dim.type' ≠ .time := h d (List.mem_cons_self d rest) dim hd
      simp only [if_neg this]
      exact ih (fun d' hd' => h d' (List.mem_cons_of_mem d hd'))

/-- Claim C7: for every query carrying a start and/or end date whose
requested dimensions contain no registry-known time dimension, the WHERE
conditions are exactly the caller-supplied filter fragments, in order — the
date range is silently omitted and no date-bound comparison is added. -/
theorem C7_no_time_dimension_omits_date_bounds (reg : MetricRegistry)
    (resolved : List (String × ResolvedMetric)) (q : MetricQuery)
    (h : ∀ d ∈ q.dimensions, ∀ dim, reg.get_dimension d = some dim → dim.type' ≠ .time) :
    build_where_conditions reg resolved q = q.filters := by
  unfold build_where_conditions
  by_cases hdate : q.start_date.isSome || q.end_date.isSome
  · rw [if_pos hdate, find_time_dimension_eq_none reg q.dimensions h]
  · rw [if_neg hdate]

/-- Witness for C7: a query with a start date, a filter, and only the
categorical dimension `country` among its requested dimensions. -/
theorem C7_witness :
    build_where_conditions regOrders []
        { metrics := ["revenue"], dimensions := ["country"],
          filters := ["x = 1"], start_date := some "2024-01-01" } =
      ["x = 1"] :=
  C7_no_time_dimension_omits_date_bounds regOrders []
    { metrics := ["revenue"], dimensions := ["country"],
      filters := ["x = 1"], start_date := some "2024-01-01" }
    (by
      intro d hd dim hdim
      simp only [List.mem_singleton] at hd
      subst hd
      have : regOrders.get_dimension "country" =
          some { name := "country", type' := .categorical } := rfl
      rw [this] at hdim
      cases hdim
      decide)

/-- A string of the shape the LIMIT branch of `_assemble_query` emits. -/
def is_limit_clause (p : String) : Prop := ∃ n : Int, p = "LIMIT " ++ toString n

theorem is_limit_clause_head {p : String} (h : is_limit_clause p) :
    p.data.head? = some 'L' := by
  obtain ⟨n, rfl⟩ := h
  rfl

theorem not_limit_of_head {p : String} (c : Char) (hc : p.data.head? = some c)
    (hne : c ≠ 'L') : ¬ is_limit_clause p := by
  intro hl
  rw [is_limit_clause_head hl] at hc
  cases hc
  exact hne rfl

/-- Counterexample to claim C8 (LIMIT iff positive limit): a limit of `-1`
is not positive, yet the assembled clause list contains `LIMIT -1` — Python
`if limit:` is truthiness, not positivity. -/
theorem C8_counterexample :
    ("LIMIT -1" ∈ assemble_parts ["m AS m"] "t" [] [] [] (some (-1))) ∧
      ¬ (0 : Int) < -1 := by
  exact ⟨by decide, by decide⟩

/-- Claim C8 amended: the assembled clause list contains a LIMIT clause iff
a NONZERO limit was supplied (a negative limit does emit one, contrary to
the claim); the clause order is fixed — SELECT is always the first part and
a LIMIT clause, when present, is always the last part. -/
theorem C8_limit_clause_iff_nonzero (sel : List String) (f : String)
    (w g o : List String) (l : Option Int) :
    ((∃ p ∈ assemble_parts sel f w g o l, is_limit_clause p) ↔
        ∃ n : Int, l = some n ∧ n ≠ 0) ∧
      (assemble_parts sel f w g o l).head? =
        some ("SELECT\n  " ++ String.intercalate ",\n  " sel) ∧
      (∀ p ∈ assemble_parts sel f w g o l, is_limit_clause p →
        (assemble_parts sel f w g o l).getLast? = some p) := by
  have hmemW : ∀ p, p ∈ (if w.isEmpty then []
      else ["WHERE " ++ String.intercalate " AND " w]) → ¬ is_limit_clause p := by
    intro p hp
    by_cases hw : w.isEmpty
    · rw [if_pos hw] at hp; cases hp
    · rw [if_neg hw, List.mem_singleton] at hp
      subst hp
      exact not_limit_of_head 'W' rfl (by decide)
  have hmemG : ∀ p, p ∈ (if g.isEmpty then []
      else ["GROUP BY " ++ String.intercalate ", " g]) → ¬ is_limit_clause p := by
    intro p hp
    by_cases hg : g.isEmpty
    · rw [if_pos hg] at hp; cases hp
    · rw [if_neg hg, List.mem_singleton] at hp
      subst hp
      exact not_limit_of_head 'G' rfl (by decide)
  have hmemO : ∀ p, p ∈ (if o.isEmpty then []
      else ["ORDER BY " ++ String.intercalate ", " o]) → ¬ is_limit_clause p := by
    intro p hp
    by_cases ho : o.isEmpty
    · rw [if_pos ho] at hp; cases hp
    · rw [if_neg ho, List.mem_singleton] at hp
      subst hp
      exact not_limit_of_head 'O' rfl (by decide)
  have hmemL : ∀ p, p ∈ (match l with
      | none => []
      | some n => if n = 0 then [] else ["LIMIT " ++ toString n]) →
      is_limit_clause p ∧ ∃ n : Int, l = some n ∧ n ≠ 0 := by
    intro p hp
    cases l with
    | none => cases hp
    | some n =>
      dsimp only at hp
      by_cases hn : n = 0
      · rw [if_pos hn] at hp; cases hp
      · rw [if_neg hn, List.mem_singleton] at hp
        subst hp
        exact ⟨⟨n, rfl⟩, n, rfl, hn⟩
  have hsplit : ∀ p, p ∈ assemble_parts sel f w g o l →
      is_limit_clause p →
      p ∈ (match l with
        | none => []
        | some n => if n = 0 then [] else ["LIMIT " ++ toString n]) := by
    intro p hp hlim
    unfold assemble_parts at hp
    simp only [List.append_assoc, List.mem_append, List.cons_append,
      List.nil_append, List.mem_cons] at hp
    rcases hp with h1 | h2 | hW | hG | hO | hL
    · exact absurd hlim (by subst h1; exact not_limit_of_head 'S' rfl (by decide))
    · exact absurd hlim (by subst h2; exact not_limit_of_head 'F' rfl (by decide))
    · exact absurd hlim (hmemW p hW)
    · exact absurd hlim (hmemG p hG)
    · exact absurd hlim (hmemO p hO)
    · exact hL
  refine ⟨⟨?_, ?_⟩, rfl, ?_⟩
  · rintro ⟨p, hp, hlim⟩
    exact (hmemL p (hsplit p hp hlim)).2
  · rintro ⟨n, rfl, hn⟩
    refine ⟨"LIMIT " ++ toString n, ?_, n, rfl⟩
    unfold assemble_parts
    simp only [List.append_assoc, List.mem_append, List.cons_append,
      List.nil_append, List.mem_cons]
    right; right; right; right; right
    rw [if_neg hn]
    exact List.mem_singleton.mpr rfl
  · intro p hp hlim
    have hL := hsplit p hp hlim
    obtain ⟨n, hl, hn⟩ := (hmemL p hL).2
    subst hl
    dsimp only at hL
    rw [if_neg hn, List.mem_singleton] at hL
    subst hL
    unfold assemble_parts
    dsimp only
    rw [if_neg hn]
    exact List.getLast?_concat _

/-- Witness for the amended C8: a supplied nonzero limit yields a LIMIT
part. -/
theorem C8_witness :
    ∃ p ∈ assemble_parts ["a AS a"] "t" [] [] [] (some 5), is_limit_clause p :=
  (C8_limit_clause_iff_nonzero ["a AS a"] "t" [] [] [] (some 5)).1.mpr
    ⟨5, rfl, by decide⟩

/-- `_build_indexes` only rebuilds the reverse indices; the metric map is
untouched whether or not indexing fails. -/
theorem build_indexes_metrics (reg : MetricRegistry) :
    (build_indexes reg).1.metrics = reg.metrics := by
  rcases h : index_models reg.semantic_models reg.measure_to_model reg.dimension_to_model
    with ⟨⟨mi, di⟩, err⟩
  simp [build_indexes, h]

/-- A key bound in an association list is found by `lookup`. -/
theorem lookup_isSome_of_mem {β : Type} (k : String) (v : β) :
    ∀ l : List (String × β), (k, v) ∈ l → (l.lookup k).isSome = true := by
  intro l h
  induction l with
  | nil => cases h
  | cons p rest ih =>
    rw [List.mem_cons] at h
    cases hb : k == p.1 with
    | true => simp [List.lookup, hb]
    | false =>
      rcases h with h | h
      · rw [← h] at hb; simp at hb
      · simpa [List.lookup, hb] using ih h

/-- Counterexample to claim C3 (atomic load): loading `docBadRef` fails with
the unresolved-measure error, yet the returned registry still holds the
`revenue` metric and `get_metric` happily serves it — the failed load left
usable content behind. -/
theorem C3_counterexample :
    (load_directory [docBadRef]).2 =
        some (.unknownMeasure "revenue" "nonexistent_measure") ∧
      ((load_directory [docBadRef]).1.get_metric "revenue").isSome = true := by
  exact ⟨by decide, by decide⟩

/-- Claim C3 amended: load is NOT atomic. When every document merges cleanly
and the indices build, but reference validation fails, the registry object
returned by the failed load retains every inserted model and metric: its
metric map equals the fully merged map and every loaded metric is still
observable through `get_metric`. (Atomicity holds only if the caller
discards the registry object after a failed load.) -/
theorem C3_failed_load_not_rolled_back (docs : List Document)
    (reg1 reg2 : MetricRegistry) (e : LoadError)
    (h1 : load_files emptyRegistry docs = (reg1, none))
    (h2 : build_indexes reg1 = (reg2, none))
    (h3 : validate_references reg2 = .error e) :
    load_directory docs = (reg2, some e) ∧
      reg2.metrics = reg1.metrics ∧
      ∀ p ∈ reg1.metrics, (reg2.get_metric p.1).isSome = true := by
  have hm : reg2.metrics = reg1.metrics := by
    have := build_indexes_metrics reg1
    rw [h2] at this
    exact this
  cases docs with
  | nil =>
    exfalso
    have hr1 : reg1 = emptyRegistry := by
      have h' : load_files emptyRegistry [] = (emptyRegistry, none) := rfl
      rw [h1] at h'
      exact congrArg Prod.fst h'
    rw [hr1] at hm
    have : validate_references reg2 = .ok () := by
      unfold validate_references
      rw [hm]
      rfl
    rw [this] at h3
    cases h3
  | cons d rest =>
    refine ⟨?_, hm, ?_⟩
    · unfold load_directory
      rw [if_neg (by simp)]
      rw [h1]
      dsimp only
      rw [h2]
      dsimp only
      rw [h3]
    · intro p hp
      rw [show reg2.get_metric p.1 = reg2.metrics.lookup p.1 from rfl, hm]
      exact lookup_isSome_of_mem p.1 p.2 reg1.metrics hp

/-- Witness for the amended C3 at the concrete bad-reference document. -/
theorem C3_witness :
    load_directory [docBadRef] =
        (regBadRefIndexed, some (.unknownMeasure "revenue" "nonexistent_measure")) ∧
      regBadRefIndexed.metrics = regBadRefMerged.metrics ∧
      ∀ p ∈ regBadRefMerged.metrics, (regBadRefIndexed.get_metric p.1).isSome = true :=
  C3_failed_load_not_rolled_back [docBadRef] regBadRefMerged regBadRefIndexed
    (.unknownMeasure "revenue" "nonexistent_measure") (by decide) (by decide) (by decide)

/-- `r` is a missing reference of metric `m` against registry `reg`: the kind
of dangling reference `_validate_references` exists to catch — a simple or
cumulative metric whose measure is absent from the measure index, a derived
metric referencing a metric name absent from the metric map, or a ratio
metric whose numerator or denominator is absent from the metric map. -/
def MissingRef (reg : MetricRegistry) (m : Metric) (r : String) : Prop :=
  (∃ p, m.type' = .simple ∧ m.type_params = .simple p ∧ r = p.measure ∧
    reg.measure_to_model.lookup p.measure = none) ∨
  (∃ p, m.type' = .derived ∧ m.type_params = .derived p ∧ r ∈ p.metrics ∧
    reg.metrics.lookup r = none) ∨
  (∃ p, m.type' = .ratio ∧ m.type_params = .ratio p ∧
    (r = p.numerator ∨ r = p.denominator) ∧ reg.metrics.lookup r = none) ∨
  (∃ p, m.type' = .cumulative ∧ m.type_params = .cumulative p ∧ r = p.measure ∧
    reg.measure_to_model.lookup p.measure = none)

/-- When the per-metric check fails, the error names the checked metric
together with one of its genuinely missing references. -/
theorem validate_one_error (reg : MetricRegistry) (n : String) (m : Metric)
    (e : LoadError) (h : validate_one reg n m = .error e) :
    ∃ r, e.unresolved_names = some (n, r) ∧ MissingRef reg m r := by
  unfold validate_one at h
  cases hty : m.type' <;> rw [hty] at h <;>
    cases htp : m.type_params <;> rw [htp] at h <;> dsimp only at h
  case simple.simple p =>
    by_cases hl : (reg.measure_to_model.lookup p.measure).isNone
    · rw [if_pos hl] at h
      cases h
      exact ⟨p.measure, rfl,
        Or.inl ⟨p, hty, htp, rfl, Option.isNone_iff_eq_none.mp hl⟩⟩
    · rw [if_neg hl] at h; cases h
  case simple.derived p => cases h
  case simple.ratio p => cases h
  case simple.cumulative p => cases h
  case derived.simple p => cases h
  case derived.derived p =>
    cases hf : p.metrics.find? (fun r => (reg.metrics.lookup r).isNone) with
    | none => rw [hf] at h; cases h
    | some r =>
      rw [hf] at h
      cases h
      refine ⟨r, rfl, Or.inr (Or.inl ⟨p, hty, htp, List.mem_of_find?_eq_some hf, ?_⟩)⟩
      have hb := List.find?_some hf
      exact Option.isNone_iff_eq_none.mp hb
  case derived.ratio p => cases h
  case derived.cumulative p => cases h
  case ratio.simple p => cases h
  case ratio.derived p => cases h
  case ratio.ratio p =>
    by_cases hn : (reg.metrics.lookup p.numerator).isNone
    · rw [if_pos hn] at h
      cases h
      exact ⟨p.numerator, rfl,
        Or.inr (Or.inr (Or.inl ⟨p, hty, htp, Or.inl rfl,
          Option.isNone_iff_eq_none.mp hn⟩))⟩
    · rw [if_neg hn] at h
      by_cases hd : (reg.metrics.lookup p.denominator).isNone
      · rw [if_pos hd] at h
        cases h
        exact ⟨p.denominator, rfl,
          Or.inr (Or.inr (Or.inl ⟨p, hty, htp, Or.inr rfl,
            Option.isNone_iff_eq_none.mp hd⟩))⟩
      · rw [if_neg hd] at h; cases h
  case ratio.cumulative p => cases h
  case cumulative.simple p => cases h
  case cumulative.derived p => cases h
  case cumulative.ratio p => cases h
  case cumulative.cumulative p =>
    by_cases hl : (reg.measure_to_model.lookup p.measure).isNone
    · rw [if_pos hl] at h
      cases h
      exact ⟨p.measure, rfl,
        Or.inr (Or.inr (Or.inr ⟨p, hty, htp, rfl, Option.isNone_iff_eq_none.mp hl⟩))⟩
    · rw [if_neg hl] at h; cases h

/-- When the per-metric check succeeds, the metric has no missing
reference. -/
theorem validate_one_ok (reg : MetricRegistry) (n : String) (m : Metric)
    (h : validate_one reg n m = .ok ()) : ∀ r, ¬ MissingRef reg m r := by
  intro r hr
  unfold validate_one at h
  rcases hr with ⟨p, hty, htp, hrp, hl⟩ | ⟨p, hty, htp, hrp, hl⟩ |
    ⟨p, hty, htp, hrp, hl⟩ | ⟨p, hty, htp, hrp, hl⟩
  · rw [hty, htp] at h
    dsimp only at h
    rw [if_pos (Option.isNone_iff_eq_none.mpr hl)] at h
    cases h
  · rw [hty, htp] at h
    dsimp only at h
    have : p.metrics.find? (fun x => (reg.metrics.lookup x).isNone) ≠ none := by
      intro hf
      have := List.find?_eq_none.mp hf r hrp
      rw [Option.isNone_iff_eq_none.mpr hl] at this
      exact this rfl
    cases hf : p.metrics.find? (fun x => (reg.metrics.lookup x).isNone) with
    | none => exact this hf
    | some x => rw [hf] at h; cases h
  · rw [hty, htp] at h
    dsimp only at h
    rcases hrp with hrp | hrp
    · subst hrp
      rw [if_pos (Option.isNone_iff_eq_none.mpr hl)] at h
      cases h
    · subst hrp
      by_cases hn : (reg.metrics.lookup p.numerator).isNone
      · rw [if_pos hn] at h; cases h
      · rw [if_neg hn, if_pos (Option.isNone_iff_eq_none.mpr hl)] at h
        cases h
  · rw [hty, htp] at h
    dsimp only at h
    rw [if_pos (Option.isNone_iff_eq_none.mpr hl)] at h
    cases h

/-- If any metric in the list carries a missing reference, the validation
loop fails, and the error it fails with names an offending metric of the
list together with one of its missing references. -/
theorem validate_list_error_of_offending (reg : MetricRegistry) :
    ∀ l : List (String × Metric), (∃ p ∈ l, ∃ r, MissingRef reg p.2 r) →
      ∃ e, validate_list reg l = .error e ∧
        ∃ n m r, (n, m) ∈ l ∧ MissingRef reg m r ∧
          e.unresolved_names = some (n, r) := by
  intro l h
  induction l with
  | nil => obtain ⟨p, hp, _⟩ := h; cases hp
  | cons q rest ih =>
    obtain ⟨n0, m0⟩ := q
    cases hv : validate_one reg n0 m0 with
    | error e =>
      obtain ⟨r, hr1, hr2⟩ := validate_one_error reg n0 m0 e hv
      refine ⟨e, ?_, n0, m0, r, List.mem_cons_self _ _, hr2, hr1⟩
      rw [validate_list, hv]
    | ok u =>
      cases u
      obtain ⟨p, hp, r, hr⟩ := h
      rw [List.mem_cons] at hp
      rcases hp with hp | hp
      · subst hp
        exact absurd hr (validate_one_ok reg n0 m0 hv r)
      · obtain ⟨e, he, n', m', r', hmem, hmr, hnames⟩ := ih ⟨p, hp, r, hr⟩
        refine ⟨e, ?_, n', m', r', List.mem_cons_of_mem _ hmem, hmr, hnames⟩
        rw [validate_list, hv]
        exact he

/-- Claim C6: when the merged and indexed registry contains a metric with a
missing reference (a simple or cumulative metric whose measure is absent
from the measure index, a derived metric referencing an unknown metric
name, or a ratio metric whose numerator or denominator is unknown), loading
fails, and the error is an unresolved-reference error naming both an
offending metric and its missing reference. -/
theorem C6_unresolved_reference_fails_load (docs : List Document)
    (reg1 reg2 : MetricRegistry)
    (h1 : load_files emptyRegistry docs = (reg1, none))
    (h2 : build_indexes reg1 = (reg2, none))
    (h3 : ∃ p ∈ reg2.metrics, ∃ r, MissingRef reg2 p.2 r) :
    ∃ e, load_directory docs = (reg2, some e) ∧
      ∃ n m r, (n, m) ∈ reg2.metrics ∧ MissingRef reg2 m r ∧
        e.unresolved_names = some (n, r) := by
  obtain ⟨e, he, hrest⟩ := validate_list_error_of_offending reg2 reg2.metrics h3
  have hm : reg2.metrics = reg1.metrics := by
    have h' := build_indexes_metrics reg1
    rw [h2] at h'
    exact h'
  cases docs with
  | nil =>
    exfalso
    have hr1 : reg1 = emptyRegistry := by
      have h' : load_files emptyRegistry [] = (emptyRegistry, none) := rfl
      rw [h1] at h'
      exact congrArg Prod.fst h'
    obtain ⟨p, hp, _⟩ := h3
    rw [hm, hr1] at hp
    cases hp
  | cons d ds =>
    refine ⟨e, ?_, hrest⟩
    unfold load_directory
    rw [if_neg (by simp)]
    rw [h1]
    dsimp only
    rw [h2]
    dsimp only
    rw [show validate_references reg2 = .error e from he]

/-- The metric value stored for `revenue` after merging `docBadRef`. -/
def mRevBad : Metric :=
  { name := "revenue", type' := .simple, type_params := .simple ⟨"nonexistent_measure"⟩ }

/-- Witness for C6: loading `docBadRef` (whose `revenue` metric references
the undefined measure `nonexistent_measure`) fails with an error naming
them both. -/
theorem C6_witness :
    ∃ e, load_directory [docBadRef] = (regBadRefIndexed, some e) ∧
      ∃ n m r, (n, m) ∈ regBadRefIndexed.metrics ∧ MissingRef regBadRefIndexed m r ∧
        e.unresolved_names = some (n, r) :=
  C6_unresolved_reference_fails_load [docBadRef] regBadRefMerged regBadRefIndexed
    (by decide) (by decide)
    ⟨("revenue", mRevBad), by decide, "nonexistent_measure",
      Or.inl ⟨⟨"nonexistent_measure"⟩, rfl, rfl, rfl, rfl⟩⟩

/-- All metrics held by a registry have a parameter variant matching their
declared type tag. -/
def MetricsWellTyped (reg : MetricRegistry) : Prop :=
  ∀ p ∈ reg.metrics, type_params_match p.2.type' p.2.type_params = true

theorem parse_metric_wt (raw : RawMetric) (m : Metric)
    (h : parse_metric raw = .ok m) :
    type_params_match m.type' m.type_params = true := by
  unfold parse_metric mkMetric at h
  by_cases hc : type_params_match raw.type' raw.type_params
  · rw [if_pos hc] at h
    dsimp only at h
    cases h
    exact hc
  · rw [if_neg hc] at h
    dsimp only at h
    cases h

theorem insert_models_metrics (ms : List SemanticModel) :
    ∀ reg : MetricRegistry, (insert_models reg ms).1.metrics = reg.metrics := by
  induction ms with
  | nil => intro reg; rfl
  | cons model rest ih =>
    intro reg
    rw [insert_models]
    by_cases hd : (reg.semantic_models.lookup model.name).isSome
    · rw [if_pos hd]
    · rw [if_neg hd]
      exact ih _

theorem insert_metrics_wt (raws : List RawMetric) :
    ∀ reg : MetricRegistry, MetricsWellTyped reg →
      MetricsWellTyped (insert_metrics reg raws).1 := by
  induction raws with
  | nil => intro reg h; exact h
  | cons raw rest ih =>
    intro reg h
    rw [insert_metrics]
    cases hp : parse_metric raw with
    | error e => exact h
    | ok m =>
      dsimp only
      by_cases hd : (reg.metrics.lookup m.name).isSome
      · rw [if_pos hd]; exact h
      · rw [if_neg hd]
        refine ih _ ?_
        intro p hp'
        rw [List.mem_append] at hp'
        rcases hp' with hp' | hp'
        · exact h p hp'
        · rw [List.mem_singleton] at hp'
          subst hp'
          exact parse_metric_wt raw m hp

theorem load_file_wt (reg : MetricRegistry) (doc : Document)
    (h : MetricsWellTyped reg) : MetricsWellTyped (load_file reg doc).1 := by
  unfold load_file
  rcases him : insert_models reg doc.semantic_models with ⟨reg1, err⟩
  have hm : reg1.metrics = reg.metrics := by
    have h' := insert_models_metrics doc.semantic_models reg
    rw [him] at h'
    exact h'
  have h1 : MetricsWellTyped reg1 := by
    intro p hp
    rw [hm] at hp
    exact h p hp
  cases err with
  | some e => exact h1
  | none => exact insert_metrics_wt doc.metrics reg1 h1

theorem load_files_wt (docs : List Document) :
    ∀ reg : MetricRegistry, MetricsWellTyped reg →
      MetricsWellTyped (load_files reg docs).1 := by
  induction docs with
  | nil => intro reg h; exact h
  | cons doc rest ih =>
    intro reg h
    rw [load_files]
    rcases hlf : load_file reg doc with ⟨reg1, err⟩
    have h1 : MetricsWellTyped reg1 := by
      have h' := load_file_wt reg doc h
      rw [hlf] at h'
      exact h'
    cases err with
    | some e => exact h1
    | none => exact ih reg1 h1

/-- Claim C9: the parameter variant's shape must match the declared type
tag. (i) Every successfully constructed `Metric` satisfies the match; (ii)
constructing a `Metric` from a mismatched tag/variant pair fails at
construction time; (iii) consequently every metric held by any registry a
load produces — whether the load succeeded or failed — satisfies the match,
so no mismatched metric ever reaches validation or compilation. -/
theorem C9_type_params_enforced_at_construction :
    (∀ n d ty tp fl m, mkMetric n d ty tp fl = some m →
      type_params_match m.type' m.type_params = true) ∧
    (∀ n d ty tp fl, type_params_match ty tp = false →
      mkMetric n d ty tp fl = none) ∧
    (∀ docs reg err, load_directory docs = (reg, err) →
      MetricsWellTyped reg) := by
  refine ⟨?_, ?_, ?_⟩
  · intro n d ty tp fl m h
    unfold mkMetric at h
    by_cases hc : type_params_match ty tp
    · rw [if_pos hc] at h
      cases h
      exact hc
    · rw [if_neg hc] at h
      cases h
  · intro n d ty tp fl h
    unfold mkMetric
    rw [if_neg (by rw [h]; exact Bool.false_ne_true)]
  · intro docs reg err hld
    by_cases hempty : docs.isEmpty
    · unfold load_directory at hld
      rw [if_pos hempty] at hld
      have : reg = emptyRegistry := (congrArg Prod.fst hld).symm
      subst this
      intro p hp
      cases hp
    · unfold load_directory at hld
      rw [if_neg hempty] at hld
      rcases hlf : load_files emptyRegistry docs with ⟨regA, errA⟩
      rw [hlf] at hld
      have hA : MetricsWellTyped regA := by
        have h' := load_files_wt docs emptyRegistry (fun p hp => by cases hp)
        rw [hlf] at h'
        exact h'
      cases errA with
      | some e =>
        dsimp only at hld
        have : reg = regA := (congrArg Prod.fst hld).symm
        subst this
        exact hA
      | none =>
        dsimp only at hld
        rcases hbi : build_indexes regA with ⟨regB, errB⟩
        rw [hbi] at hld
        have hB : MetricsWellTyped regB := by
          intro p hp
          have h' := build_indexes_metrics regA
          rw [hbi] at h'
          rw [h'] at hp
          exact hA p hp
        cases errB with
        | some e =>
          dsimp only at hld
          have : reg = regB := (congrArg Prod.fst hld).symm
          subst this
          exact hB
        | none =>
          dsimp only at hld
          cases hv : validate_references regB with
          | error e =>
            rw [hv] at hld
            have : reg = regB := (congrArg Prod.fst hld).symm
            subst this
            exact hB
          | ok u =>
            rw [hv] at hld
            have : reg = regB := (congrArg Prod.fst hld).symm
            subst this
            exact hB

/-- Witness for C9: a ratio-tagged metric with simple params is rejected at
construction. -/
theorem C9_witness :
    mkMetric "x" none .ratio (.simple ⟨"m"⟩) none = none :=
  C9_type_params_enforced_at_construction.2.1 "x" none .ratio (.simple ⟨"m"⟩) none rfl

/-- The keys of an association list are pairwise distinct. -/
def KeysNodup {α : Type} (d : List (String × α)) : Prop := (d.map Prod.fst).Nodup

/-- Updating the value at key `k` leaves a list without key `k` unchanged. -/
theorem map_update_id {α : Type} (k : String) (v : α) :
    ∀ l : List (String × α), (∀ q ∈ l, (q.1 == k) = false) →
      l.map (fun p => if p.1 == k then (k, v) else p) = l := by
  intro l h
  induction l with
  | nil => rfl
  | cons q rest ih =>
    have hq := h q (List.mem_cons_self q rest)
    rw [List.map_cons, ih (fun q' hq' => h q' (List.mem_cons_of_mem q hq'))]
    congr 1
    simp [hq]

/-- Updating at key `k` does not change the list of keys. -/
theorem map_update_keys {α : Type} (k : String) (v : α) (d : List (String × α)) :
    (d.map (fun p => if p.1 == k then (k, v) else p)).map Prod.fst =
      d.map Prod.fst := by
  rw [List.map_map]
  apply List.map_congr_left
  intro p _
  by_cases hb : (p.1 == k) = true
  · simp only [Function.comp_apply, hb, if_pos rfl]
    exact (eq_of_beq hb).symm
  · simp only [Function.comp_apply]
    rw [if_neg (by simp [hb])]

theorem dictInsert_keysNodup {α : Type} (d : List (String × α)) (k : String) (v : α)
    (h : KeysNodup d) : KeysNodup (dictInsert d k v) := by
  unfold dictInsert
  by_cases ha : d.any (fun p => p.1 == k)
  · rw [if_pos ha]
    unfold KeysNodup
    rw [map_update_keys]
    exact h
  · rw [if_neg ha]
    unfold KeysNodup
    rw [List.map_append]
    simp only [List.map_cons, List.map_nil]
    rw [List.nodup_append]
    refine ⟨h, List.nodup_singleton k, ?_⟩
    intro x hx hk
    rw [List.mem_singleton] at hk
    subst hk
    rw [List.mem_map] at hx
    obtain ⟨p, hp, hpk⟩ := hx
    simp only [Bool.not_eq_true] at ha
    have := List.any_eq_false.mp ha p hp
    rw [hpk] at this
    simp at this

/-- Filtering the updated list for the updated key yields exactly the new
binding (keys distinct, key present). -/
theorem filter_map_update_self {α : Type} (k : String) (v : α) :
    ∀ d : List (String × α), KeysNodup d → (d.any (fun p => p.1 == k)) = true →
      (d.map (fun p => if p.1 == k then (k, v) else p)).filter
          (fun p => p.1 == k) = [(k, v)] := by
  intro d
  induction d with
  | nil => intro _ ha; exact absurd ha (by simp)
  | cons p rest ih =>
    intro h ha
    have hnd : KeysNodup rest := by
      unfold KeysNodup at h ⊢
      rw [List.map_cons, List.nodup_cons] at h
      exact h.2
    rw [List.map_cons, List.filter_cons]
    by_cases hb : (p.1 == k) = true
    · have hknotin : ∀ q ∈ rest, (q.1 == k) = false := by
        intro q hq
        have hnotmem : p.1 ∉ rest.map Prod.fst := by
          unfold KeysNodup at h
          rw [List.map_cons, List.nodup_cons] at h
          exact h.1
        by_contra hc
        rw [Bool.not_eq_false] at hc
        have hmem : q.1 ∈ rest.map Prod.fst := List.mem_map_of_mem Prod.fst hq
        rw [eq_of_beq hc, ← eq_of_beq hb] at hmem
        exact hnotmem hmem
      rw [show (if (p.1 == k) = true then (k, v) else p) = (k, v) from by simp [hb]]
      rw [map_update_id k v rest hknotin]
      rw [if_pos (by simp)]
      rw [List.filter_eq_nil_iff.mpr (fun q hq => by simp [hknotin q hq])]
    · rw [show (if (p.1 == k) = true then (k, v) else p) = p from by simp [hb]]
      rw [if_neg (by simp [hb])]
      rw [List.any_cons, Bool.or_eq_true] at ha
      rcases ha with ha | ha
      · exact absurd ha hb
      · exact ih hnd ha

/-- Filtering for any other key is unaffected by the update. -/
theorem filter_map_update_other {α : Type} (k k' : String) (v : α) (hne : k' ≠ k) :
    ∀ d : List (String × α),
      (d.map (fun p => if p.1 == k then (k, v) else p)).filter (fun p => p.1 == k') =
        d.filter (fun p => p.1 == k') := by
  intro d
  induction d with
  | nil => rfl
  | cons p rest ih =>
    rw [List.map_cons, List.filter_cons, List.filter_cons]
    by_cases hb : (p.1 == k) = true
    · have hpk' : (p.1 == k') = false := by
        rw [eq_of_beq hb]
        exact beq_eq_false_iff_ne.mpr (Ne.symm hne)
      rw [show (if (p.1 == k) = true then (k, v) else p) = (k, v) from by simp [hb]]
      rw [show (((k, v) : String × α).1 == k') = false from
        beq_eq_false_iff_ne.mpr (Ne.symm hne)]
      rw [hpk']
      simp only [Bool.false_eq_true, if_false]
      exact ih
    · rw [show (if (p.1 == k) = true then (k, v) else p) = p from by simp [hb]]
      cases hp' : (p.1 == k') with
      | true => simp only [if_pos rfl]; rw [ih]
      | false => simp only [Bool.false_eq_true, if_false]; exact ih

theorem dictInsert_filter_self {α : Type} (d : List (String × α)) (k : String) (v : α)
    (h : KeysNodup d) :
    (dictInsert d k v).filter (fun p => p.1 == k) = [(k, v)] := by
  unfold dictInsert
  by_cases ha : d.any (fun p => p.1 == k)
  · rw [if_pos ha]
    exact filter_map_update_self k v d h ha
  · rw [if_neg ha]
    rw [List.filter_append]
    simp only [Bool.not_eq_true] at ha
    rw [List.filter_eq_nil_iff.mpr (fun q hq => by simp [List.any_eq_false.mp ha q hq])]
    simp

theorem dictInsert_filter_other {α : Type} (d : List (String × α)) (k : String) (v : α)
    (k' : String) (hne : k' ≠ k) :
    (dictInsert d k v).filter (fun p => p.1 == k') = d.filter (fun p => p.1 == k') := by
  unfold dictInsert
  by_cases ha : d.any (fun p => p.1 == k)
  · rw [if_pos ha]
    exact filter_map_update_other k k' v hne d
  · rw [if_neg ha]
    rw [List.filter_append]
    rw [show ([((k, v) : String × α)].filter (fun p => p.1 == k')) = [] from by
      simp [beq_eq_false_iff_ne.mpr (Ne.symm hne)]]
    simp

/-- Invariant of the `_resolve_metrics` loop: once a name is requested (or
already present exactly once in the accumulator), the final name-keyed map
holds exactly one entry for it. -/
theorem resolve_metrics_aux_filter (reg : MetricRegistry) (fuel : Nat) (k : String) :
    ∀ (ns : List String) (acc out : List (String × ResolvedMetric)),
      KeysNodup acc →
      (k ∈ ns ∨ ∃ r, acc.filter (fun p => p.1 == k) = [(k, r)]) →
      resolve_metrics_aux reg fuel ns acc = .ok out →
      ∃ r, out.filter (fun p => p.1 == k) = [(k, r)] := by
  intro ns
  induction ns with
  | nil =>
    intro acc out hnd hk hres
    rw [resolve_metrics_aux] at hres
    cases hres
    rcases hk with hk | hk
    · cases hk
    · exact hk
  | cons n rest ih =>
    intro acc out hnd hk hres
    rw [resolve_metrics_aux] at hres
    cases hm : reg.get_metric n with
    | none => rw [hm] at hres; cases hres
    | some m =>
      rw [hm] at hres
      dsimp only at hres
      cases hr : resolve_single reg fuel m with
      | error e => rw [hr] at hres; cases hres
      | ok r =>
        rw [hr] at hres
        dsimp only at hres
        refine ih (dictInsert acc n r) out (dictInsert_keysNodup acc n r hnd) ?_ hres
        by_cases hkn : k = n
        · subst hkn
          exact Or.inr ⟨r, dictInsert_filter_self acc k r hnd⟩
        · rcases hk with hk | hk
          · rw [List.mem_cons] at hk
            rcases hk with hk | hk
            · exact absurd hk hkn
            · exact Or.inl hk
          · obtain ⟨r', hr'⟩ := hk
            exact Or.inr ⟨r', by rw [dictInsert_filter_other acc n r k hkn]; exact hr'⟩

/-- Claim C10: when a query's metric list contains the same metric name more
than once, the name-keyed resolution map collapses the duplicates — it holds
exactly one entry for that name — and the SELECT list carries exactly one
`<expr> AS <name>` entry generated from it: the metric portion of the SELECT
list is in bijection with the resolution map (one aliased expression per map
entry, `dimensions + resolved` entries in total), so the duplicated request
is neither repeated nor rejected. -/
theorem C10_duplicate_metrics_collapse (reg : MetricRegistry) (fuel : Nat)
    (q : MetricQuery) (resolved : List (String × ResolvedMetric)) (name : String)
    (h1 : resolve_metrics reg fuel q.metrics = .ok resolved)
    (h2 : name ∈ q.metrics) :
    ∃ r, resolved.filter (fun p => p.1 == name) = [(name, r)] ∧
      (r.expr ++ " AS " ++ name) ∈ build_select_exprs reg resolved q ∧
      (build_select_exprs reg resolved q).length =
        q.dimensions.length + resolved.length := by
  obtain ⟨r, hf⟩ := resolve_metrics_aux_filter reg fuel name q.metrics [] resolved
    (by unfold KeysNodup; simp) (Or.inl h2) h1
  refine ⟨r, hf, ?_, ?_⟩
  · have hmem : (name, r) ∈ resolved := by
      have : (name, r) ∈ resolved.filter (fun p => p.1 == name) := by
        rw [hf]
        exact List.mem_singleton.mpr rfl
      exact List.mem_of_mem_filter this
    unfold build_select_exprs
    rw [List.mem_append]
    right
    exact List.mem_map_of_mem (fun p => p.2.expr ++ " AS " ++ p.1) hmem
  · unfold build_select_exprs
    rw [List.length_append, List.length_map, List.length_map]

/-- Witness for C10: requesting `revenue` twice over `regOrders`. -/
theorem C10_witness :
    ∃ r, [("revenue", rmRevenue)].filter (fun p => p.1 == "revenue") = [("revenue", r)] ∧
      (r.expr ++ " AS " ++ "revenue") ∈
        build_select_exprs regOrders [("revenue", rmRevenue)] qDup ∧
      (build_select_exprs regOrders [("revenue", rmRevenue)] qDup).length =
        qDup.dimensions.length + [("revenue", rmRevenue)].length :=
  C10_duplicate_metrics_collapse regOrders 1 qDup [("revenue", rmRevenue)] "revenue"
    rfl (by decide)

end MetricForge
